import Mathlib

/-!
Verification of the panphon feature-table engine (`panphon/_panphon.py`).

The embedding models:
* a Unicode string as its list of code points (`Segment`, `Text`);
* a feature as the pair `(value, name)` of strings, as produced by
  `zip(vals, names)` in `_read_table`;
* a Python `dict` built from a list of pairs as an association list with
  last-binding-wins lookup (`dictLookup`), which is observationally the
  mapping Python's `dict(pairs)` and dict comprehensions produce;
* a raised Python exception as an `Except` error value (`PError`).
-/

/-- Exceptions relevant to the module: `SegmentError` and `FeatureError` are
the classes defined in `_panphon.py`; `keyError` is Python's builtin
`KeyError` raised by a failing dict subscript; `configurationError` stands
for the `ConfigurationError` class named by the design document (no such
class exists in the source). -/
inductive PError where
  | segmentError
  | featureError
  | keyError
  | configurationError
deriving DecidableEq

/-- A segment (a Unicode string) as its list of code points. -/
abbrev Segment := List Nat

/-- IPA text as a list of code points. -/
abbrev Text := List Nat

/-- A feature: a `(value, name)` pair of strings, e.g. `("+", "cons")`. -/
abbrev Feature := String × String

/-- A feature set, as stored in `seg_dict` values: Python `set` of feature
tuples, modelled as a list queried only through membership. -/
abbrev FeatureSet := List Feature

/-- Lookup in a Python dict built from a list of key-value pairs: the value
of the LAST pair carrying the key (later bindings overwrite earlier ones). -/
def dictLookup {α β : Type} [DecidableEq α] (k : α) (d : List (α × β)) : Option β :=
  (d.reverse.find? (fun p => decide (p.1 = k))).map Prod.snd

/-- The module-level `filenames` dict mapping feature-set variant names to
data file paths. -/
def filenames : List (String × String) :=
  [("spe+", "data/segment_features.csv"),
   ("panphon", "data/segment_features.csv"),
   ("phoible", "data/segment_features_phoible.csv")]

/-- The state of a `FeatureTable` object after `_read_table`: the
segment-to-feature-set dict and the ordered feature-name list. (The
`segments` list field of the source only feeds `dict(self.segments)`; the
dict and names are all the queries use.) -/
structure FeatureTable where
  seg_dict : List (Segment × FeatureSet)
  names : List String
deriving DecidableEq

/-- `FeatureTable.__init__`: `filename = filenames[feature_set]` raises
`KeyError` when `feature_set` is not a key of `filenames`; otherwise
`_read_table(filename)` (external I/O, abstracted as `loader`) builds the
table. -/
def FeatureTable.init (feature_set : String) (loader : String → FeatureTable) :
    Except PError FeatureTable :=
  match dictLookup feature_set filenames with
  | some filename => Except.ok (loader filename)
  | none => Except.error PError.keyError

/-- `FeatureTable.delete_ties`: rebuilds `seg_dict` with every key's tie-bar
characters (U+0361) removed; `str.replace(u'͡', u'')` deletes every
occurrence, i.e. filters the code point 0x361 out of the key. -/
def FeatureTable.delete_ties (t : FeatureTable) : FeatureTable :=
  { t with seg_dict := t.seg_dict.map (fun kv => (kv.1.filter (fun c => decide (c ≠ 0x361)), kv.2)) }

/-- `FeatureTable.fts`: strict lookup, raising `SegmentError` when the
segment is not a key of `seg_dict`. -/
def FeatureTable.fts (t : FeatureTable) (segment : Segment) : Except PError FeatureSet :=
  match dictLookup segment t.seg_dict with
  | some specs => Except.ok specs
  | none => Except.error PError.segmentError

/-- `FeatureTable.match` (named `ftMatch` because `match` is reserved in
Lean): `set(ft_mask) <= set(ft_seg)`, i.e. every feature of the mask is a
member of the segment's feature set. -/
def ftMatch (ft_mask ft_seg : FeatureSet) : Bool :=
  ft_mask.all (fun f => decide (f ∈ ft_seg))

/-- `FeatureTable.fts_match`: subset test against the segment's feature set
when the segment is known, `None` otherwise. -/
def FeatureTable.fts_match (t : FeatureTable) (features : FeatureSet) (segment : Segment) :
    Option Bool :=
  match dictLookup segment t.seg_dict with
  | some specs => some (ftMatch features specs)
  | none => none

/-- `FeatureTable.seg_known`: key-membership test on `seg_dict`. -/
def FeatureTable.seg_known (t : FeatureTable) (segment : Segment) : Bool :=
  (dictLookup segment t.seg_dict).isSome

/-- The feature set stored for a known segment (defaulting to `[]` where the
source performs a dict access that cannot fail). -/
def ftsD (t : FeatureTable) (segment : Segment) : FeatureSet :=
  (dictLookup segment t.seg_dict).getD []

/-- `FeatureTable.fts_intersection`: keep the known segments, pop one (the
pop from an empty set raises, modelled as `none`), and fold set
intersection (`&`) of the stored feature sets over the rest. Python's
`set(...)` deduplication cannot change the members of the intersection, so
the filtered list is folded directly. -/
def FeatureTable.fts_intersection (t : FeatureTable) (segments : List Segment) :
    Option FeatureSet :=
  match segments.filter (fun s => t.seg_known s) with
  | [] => none
  | s :: rest =>
    some (rest.foldl (fun acc s2 => acc.filter (fun f => decide (f ∈ ftsD t s2))) (ftsD t s))

/-- `FeatureTable.fts_match_any`: Python `any` over the `fts_match` results,
where `None` and `False` are both falsy (`Option.getD false`). -/
def FeatureTable.fts_match_any (t : FeatureTable) (fts : FeatureSet) (inv : List Segment) :
    Bool :=
  inv.any (fun s => (t.fts_match fts s).getD false)

/-- `FeatureTable.fts_match_all`: Python `all` over the `fts_match` results,
where `None` and `False` are both falsy. -/
def FeatureTable.fts_match_all (t : FeatureTable) (fts : FeatureSet) (inv : List Segment) :
    Bool :=
  inv.all (fun s => (t.fts_match fts s).getD false)

/-- The name-indexed dict `{n: v for (v, n) in seg}` built by `fts_to_str`:
the value of the last pair carrying the name. -/
def nameLookup (n : String) (seg : FeatureSet) : Option String :=
  (seg.reverse.find? (fun f => decide (f.2 = n))).map Prod.fst

/-- The `vals` dict of `fts_to_str`: `{u'0': ' ', u'-': '0', u'+': '1'}`;
any other value raises `KeyError`, modelled as `none`. -/
def vals (v : String) : Option Char :=
  if v = "0" then some ' '
  else if v = "-" then some '0'
  else if v = "+" then some '1'
  else none

/-- The loop of `fts_to_str` over `self.names`: emit one rendered character
per table feature name present in the segment's feature set. -/
def fts_to_str_go (seg : FeatureSet) : List String → Option (List Char)
  | [] => some []
  | n :: rest =>
    match nameLookup n seg with
    | none => fts_to_str_go seg rest
    | some v =>
      match vals v, fts_to_str_go seg rest with
      | some c, some out => some (c :: out)
      | _, _ => none

/-- `FeatureTable.fts_to_str`: render a feature set as a character vector in
table feature-name order. -/
def FeatureTable.fts_to_str (t : FeatureTable) (seg : FeatureSet) : Option (List Char) :=
  fts_to_str_go seg t.names

/-- `FeatureTable.sonority_from_fts`: the nested-if sonority cascade of the
source, each test a singleton-mask `match` against the feature set. -/
def sonority_from_fts (seg : FeatureSet) : Nat :=
  if ftMatch [("-", "cons")] seg then
    if ftMatch [("+", "lo")] seg then 9
    else if ftMatch [("-", "hi")] seg then 8
    else 7
  else
    if ftMatch [("+", "son")] seg then
      if ftMatch [("-", "nas")] seg then 6 else 5
    else if ftMatch [("+", "cont")] seg then
      if ftMatch [("+", "voi")] seg then 4 else 3
    else
      if ftMatch [("+", "voi")] seg then 2 else 1

/-- The design document's sonority decision table, transcribed literally:
rows are evaluated top to bottom, the first row whose condition holds
determines the rank, and no row matching yields no verdict (`none`). -/
def sonoritySpecCascade (seg : FeatureSet) : Option Nat :=
  if ("-", "cons") ∈ seg ∧ ("+", "lo") ∈ seg then some 9
  else if ("-", "cons") ∈ seg ∧ ("-", "hi") ∈ seg ∧ ("+", "lo") ∉ seg then some 8
  else if ("-", "cons") ∈ seg then some 7
  else if ("+", "cons") ∈ seg ∧ ("+", "son") ∈ seg ∧ ("-", "nas") ∈ seg then some 6
  else if ("+", "cons") ∈ seg ∧ ("+", "son") ∈ seg then some 5
  else if ("+", "cons") ∈ seg ∧ ("-", "son") ∈ seg ∧ ("+", "cont") ∈ seg ∧ ("+", "voi") ∈ seg then some 4
  else if ("+", "cons") ∈ seg ∧ ("-", "son") ∈ seg ∧ ("+", "cont") ∈ seg then some 3
  else if ("+", "cons") ∈ seg ∧ ("-", "son") ∈ seg ∧ ("-", "cont") ∈ seg ∧ ("+", "voi") ∈ seg then some 2
  else if ("+", "cons") ∈ seg ∧ ("-", "son") ∈ seg ∧ ("-", "cont") ∈ seg then some 1
  else none

/-- Base character of `SEG_REGEX`: Basic Latin, Greek and Coptic,
IPA Extensions, `œ` (U+0153), or U+00C0 to U+00FF. -/
def isBaseChar (c : Nat) : Bool :=
  decide (c ≤ 0x7F ∨ (0x370 ≤ c ∧ c ≤ 0x3FF) ∨ (0x250 ≤ c ∧ c ≤ 0x2AF) ∨
    c = 0x153 ∨ (0xC0 ≤ c ∧ c ≤ 0xFF))

/-- Combining diacritic run of `SEG_REGEX`: U+0300 to U+0360 or U+0362 to
U+036F (the tie bar U+0361 is deliberately excluded). -/
def isCombining (c : Nat) : Bool :=
  decide ((0x300 ≤ c ∧ c ≤ 0x360) ∨ (0x362 ≤ c ∧ c ≤ 0x36F))

/-- Spacing modifier letter of `SEG_REGEX`: the block U+02B0 to U+02FF. -/
def isModifier (c : Nat) : Bool :=
  decide (0x2B0 ≤ c ∧ c ≤ 0x2FF)

/-- `segment_text`: `SEG_REGEX.finditer` over the text, yielding each
leftmost greedy match `base combining* modifier*` and skipping code points
that start no match. -/
def segment_text (text : Text) : List Segment :=
  match text with
  | [] => []
  | c :: rest =>
    if isBaseChar c then
      (c :: (rest.takeWhile isCombining ++ (rest.dropWhile isCombining).takeWhile isModifier))
        :: segment_text ((rest.dropWhile isCombining).dropWhile isModifier)
    else
      segment_text rest
termination_by text.length
decreasing_by
  · have h1 : ((rest.dropWhile isCombining).dropWhile isModifier).length ≤
        (rest.dropWhile isCombining).length := (List.dropWhile_sublist _).length_le
    have h2 : (rest.dropWhile isCombining).length ≤ rest.length :=
      (List.dropWhile_sublist _).length_le
    simp only [List.length_cons]
    omega
  · simp only [List.length_cons]
    omega

/-- A small concrete table instance for witnesses: rows for `p`, `a` and
`b` (code points 0x70, 0x61, 0x62), in the shape `_read_table` produces. -/
def exampleTable : FeatureTable :=
  { seg_dict :=
      [([0x70], [("-", "cons"), ("-", "son"), ("-", "cont"), ("-", "voi")]),
       ([0x61], [("-", "cons"), ("+", "lo")]),
       ([0x62], [("+", "cons"), ("+", "voi")])],
    names := ["cons", "son", "cont", "voi", "lo", "hi", "nas"] }

/-! ## Helper lemmas -/

/-- The subset test is membership of every mask feature. -/
lemma ftMatch_iff (ft_mask ft_seg : FeatureSet) :
    ftMatch ft_mask ft_seg = true ↔ ∀ f ∈ ft_mask, f ∈ ft_seg := by
  simp [ftMatch]

/-- A singleton mask tests a single membership. -/
lemma ftMatch_singleton (f : Feature) (s : FeatureSet) :
    ftMatch [f] s = decide (f ∈ s) := by
  simp [ftMatch]

/-- Truthiness of an `fts_match` result under Python `any`/`all`: truthy
iff the segment is known and the subset test succeeds. -/
lemma fts_match_getD (t : FeatureTable) (m : FeatureSet) (s : Segment) :
    (t.fts_match m s).getD false = true ↔
      t.seg_known s = true ∧ ftMatch m (ftsD t s) = true := by
  cases h : dictLookup s t.seg_dict <;>
    simp [FeatureTable.fts_match, FeatureTable.seg_known, ftsD, h]

/-! ## Claim theorems -/

/-- C1: `match(mask, featureSet)` returns true iff every feature pair of the
mask is an element of the feature set, and consequently the empty mask
matches the stored feature set of every segment present in the table. -/
theorem match_is_subset_test :
    (∀ ft_mask ft_seg : FeatureSet,
      ftMatch ft_mask ft_seg = true ↔ ∀ f ∈ ft_mask, f ∈ ft_seg) ∧
    (∀ (t : FeatureTable) (s : Segment) (specs : FeatureSet),
      t.fts s = Except.ok specs → ftMatch [] specs = true) := by
  refine ⟨ftMatch_iff, ?_⟩
  intro t s specs _
  simp [ftMatch]

/-- C1 witness: the empty mask matches the table entry of `a`. -/
theorem match_is_subset_test_witness :
    ftMatch [] [("-", "cons"), ("+", "lo")] = true :=
  match_is_subset_test.2 exampleTable [0x61] [("-", "cons"), ("+", "lo")] rfl

/-- C6: `fts` fails with `SegmentError` exactly when the segment is not a
key, returns the stored feature set on a key, and `seg_known` is the
key-membership test. -/
theorem fts_segmentError_iff_unknown :
    ∀ (t : FeatureTable) (s : Segment),
      (t.fts s = Except.error PError.segmentError ↔ t.seg_known s = false) ∧
      (∀ specs, dictLookup s t.seg_dict = some specs → t.fts s = Except.ok specs) ∧
      (t.seg_known s = true ↔ ∃ specs, dictLookup s t.seg_dict = some specs) := by
  intro t s
  cases h : dictLookup s t.seg_dict <;>
    simp [FeatureTable.fts, FeatureTable.seg_known, h]

/-- C6 witness: `p` is a key of the example table, so `fts` returns its
stored feature set. -/
theorem fts_segmentError_iff_unknown_witness :
    exampleTable.fts [0x70] =
      Except.ok [("-", "cons"), ("-", "son"), ("-", "cont"), ("-", "voi")] :=
  (fts_segmentError_iff_unknown exampleTable [0x70]).2.1
    [("-", "cons"), ("-", "son"), ("-", "cont"), ("-", "voi")] rfl

/-- C2: `fts_match_any` is true iff some inventory segment is known and its
feature set contains the mask; `fts_match_all` is true iff every inventory
segment is known and its feature set contains the mask. -/
theorem fts_match_any_all_quantify :
    ∀ (t : FeatureTable) (m : FeatureSet) (inv : List Segment),
      (t.fts_match_any m inv = true ↔
        ∃ s ∈ inv, t.seg_known s = true ∧ ftMatch m (ftsD t s) = true) ∧
      (t.fts_match_all m inv = true ↔
        ∀ s ∈ inv, t.seg_known s = true ∧ ftMatch m (ftsD t s) = true) := by
  intro t m inv
  constructor
  · simp [FeatureTable.fts_match_any, List.any_eq_true, fts_match_getD]
  · simp [FeatureTable.fts_match_all, List.all_eq_true, fts_match_getD]

/-- C2 witness: over the example table, the mask `{(+, lo)}` matches some
segment of the inventory `[p, a]` (namely `a`). -/
theorem fts_match_any_all_quantify_witness :
    exampleTable.fts_match_any [("+", "lo")] [[0x70], [0x61]] = true :=
  (fts_match_any_all_quantify exampleTable [("+", "lo")] [[0x70], [0x61]]).1.mpr
    ⟨[0x61], by decide, by decide, by decide⟩

/-- C10: the sonority derivation is total over arbitrary feature sets with a
result between 1 and 9, any set not containing `(-, cons)` is routed through
the consonant branch (ranks 1 to 6), and the empty feature set gets rank 1. -/
theorem sonority_from_fts_total :
    (∀ seg : FeatureSet, 1 ≤ sonority_from_fts seg ∧ sonority_from_fts seg ≤ 9) ∧
    (∀ seg : FeatureSet, ("-", "cons") ∉ seg → sonority_from_fts seg ≤ 6) ∧
    sonority_from_fts [] = 1 := by
  refine ⟨?_, ?_, by decide⟩
  · intro seg
    unfold sonority_from_fts
    split_ifs <;> omega
  · intro seg h
    unfold sonority_from_fts
    simp only [ftMatch_singleton, decide_eq_true_eq]
    rw [if_neg h]
    split_ifs <;> omega

/-- C10 witness: a feature set without `(-, cons)` (here `{(+, son)}`) gets
a consonant-branch rank, at most 6. -/
theorem sonority_from_fts_total_witness :
    sonority_from_fts [("+", "son")] ≤ 6 :=
  sonority_from_fts_total.2.1 [("+", "son")] (by decide)

/-- C3: wherever the spec's top-to-bottom first-match-wins sonority decision
table assigns a rank, the code's cascade returns that rank; in particular
`{(-,cons),(+,lo)}` gets rank 9 and `{(+,cons),(-,son),(-,cont),(-,voi)}`
gets rank 1. -/
theorem sonority_matches_spec_cascade :
    (∀ (seg : FeatureSet) (r : Nat),
      sonoritySpecCascade seg = some r → sonority_from_fts seg = r) ∧
    sonority_from_fts [("-", "cons"), ("+", "lo")] = 9 ∧
    sonority_from_fts [("+", "cons"), ("-", "son"), ("-", "cont"), ("-", "voi")] = 1 := by
  refine ⟨?_, by decide, by decide⟩
  intro seg r h
  unfold sonoritySpecCascade at h
  unfold sonority_from_fts
  simp only [ftMatch_singleton, decide_eq_true_eq]
  split_ifs at h <;> simp_all

/-- C3 witness: the cascade's second row applied to `{(-,cons),(-,hi)}`
yields rank 8 in the code. -/
theorem sonority_matches_spec_cascade_witness :
    sonority_from_fts [("-", "cons"), ("-", "hi")] = 8 :=
  sonority_matches_spec_cascade.1 [("-", "cons"), ("-", "hi")] 8 (by decide)

/-- Membership in the intersection fold: a feature survives iff it is in the
initial set and in the stored feature set of every folded segment. -/
lemma mem_inter_foldl (t : FeatureTable) (f : Feature) :
    ∀ (l : List Segment) (init : FeatureSet),
      (f ∈ l.foldl (fun acc s2 => acc.filter (fun g => decide (g ∈ ftsD t s2))) init ↔
        f ∈ init ∧ ∀ s ∈ l, f ∈ ftsD t s) := by
  intro l
  induction l with
  | nil => intro init; simp
  | cons s l ih =>
    intro init
    rw [List.foldl_cons, ih]
    simp only [List.mem_filter, decide_eq_true_eq, List.forall_mem_cons]
    tauto

/-- C4: on an input with at least one known segment, `fts_intersection`
returns exactly the features shared by all known segments of the input
(unknown segments filtered out first), and two known segments with disjoint
feature sets give the empty feature set rather than an error. -/
theorem fts_intersection_shared_features :
    (∀ (t : FeatureTable) (segments : List Segment),
      (∃ s ∈ segments, t.seg_known s = true) →
      ∃ res, t.fts_intersection segments = some res ∧
        ∀ f : Feature, (f ∈ res ↔ ∀ s ∈ segments, t.seg_known s = true → f ∈ ftsD t s)) ∧
    exampleTable.fts_intersection [[0x70], [0x62]] = some [] := by
  refine ⟨?_, by decide⟩
  intro t segments hex
  cases hf : segments.filter (fun s => t.seg_known s) with
  | nil =>
    exfalso
    obtain ⟨s, hs, hk⟩ := hex
    have hmem : s ∈ segments.filter (fun s => t.seg_known s) :=
      List.mem_filter.mpr ⟨hs, hk⟩
    rw [hf] at hmem
    exact absurd hmem (List.not_mem_nil s)
  | cons s rest =>
    have heq : t.fts_intersection segments =
        some (rest.foldl (fun acc s2 => acc.filter (fun g => decide (g ∈ ftsD t s2)))
          (ftsD t s)) := by
      unfold FeatureTable.fts_intersection
      rw [hf]
    refine ⟨_, heq, ?_⟩
    intro f
    rw [mem_inter_foldl]
    have hmem : ∀ x, x ∈ s :: rest ↔ x ∈ segments ∧ t.seg_known x = true := by
      intro x
      rw [← hf, List.mem_filter]
    constructor
    · rintro ⟨h1, h2⟩ x hx hkx
      rcases List.mem_cons.mp ((hmem x).mpr ⟨hx, hkx⟩) with h | h
      · rw [h]; exact h1
      · exact h2 x h
    · intro hall
      have hs' := (hmem s).mp (List.mem_cons_self s rest)
      refine ⟨hall s hs'.1 hs'.2, ?_⟩
      intro x hx
      have hx' := (hmem x).mp (List.mem_cons_of_mem s hx)
      exact hall x hx'.1 hx'.2

/-- C4 witness: over the example table, the intersection of the known
segments `p` and `a` is exactly their shared features. -/
theorem fts_intersection_shared_features_witness :
    ∃ res, exampleTable.fts_intersection [[0x70], [0x61]] = some res ∧
      ∀ f : Feature, (f ∈ res ↔ ∀ s ∈ [[0x70], [0x61]],
        exampleTable.seg_known s = true → f ∈ ftsD exampleTable s) :=
  fts_intersection_shared_features.1 exampleTable [[0x70], [0x61]]
    ⟨[0x70], by decide, by decide⟩

/-- The name-indexed dict of `fts_to_str` has an entry for a name iff the
name occurs in the feature set. -/
lemma nameLookup_isSome (seg : FeatureSet) :
    ∀ n : String, (nameLookup n seg).isSome = true ↔ n ∈ seg.map Prod.snd := by
  intro n
  simp only [nameLookup, Option.isSome_map', List.find?_isSome, List.mem_reverse,
    List.mem_map, decide_eq_true_eq]

/-- A value returned by the name-indexed dict is the value component of some
member of the feature set. -/
lemma nameLookup_mem (n v : String) (seg : FeatureSet) (h : nameLookup n seg = some v) :
    ∃ f ∈ seg, f.1 = v := by
  unfold nameLookup at h
  rw [Option.map_eq_some'] at h
  obtain ⟨f, hfind, hfst⟩ := h
  exact ⟨f, List.mem_reverse.mp (List.mem_of_find?_eq_some hfind), hfst⟩

/-- The rendering loop succeeds on valid feature values and emits one
character per table name carried by the feature set. -/
lemma fts_to_str_go_length (seg : FeatureSet)
    (hv : ∀ f ∈ seg, f.1 = "+" ∨ f.1 = "-" ∨ f.1 = "0") :
    ∀ names : List String, ∃ out, fts_to_str_go seg names = some out ∧
      out.length = (names.filter (fun n => (nameLookup n seg).isSome)).length := by
  intro names
  induction names with
  | nil => exact ⟨[], rfl, rfl⟩
  | cons n rest ih =>
    obtain ⟨out, hout, hlen⟩ := ih
    cases hn : nameLookup n seg with
    | none =>
      refine ⟨out, ?_, ?_⟩
      · simp [fts_to_str_go, hn, hout]
      · simp [List.filter_cons, hn, hlen]
    | some v =>
      obtain ⟨f, hf, hfv⟩ := nameLookup_mem n v seg hn
      have hvv : ∃ c, vals v = some c := by
        rcases hv f hf with h | h | h <;> rw [← hfv, h]
        · exact ⟨'1', by decide⟩
        · exact ⟨'0', by decide⟩
        · exact ⟨' ', by decide⟩
      obtain ⟨c, hc⟩ := hvv
      refine ⟨c :: out, ?_, ?_⟩
      · simp [fts_to_str_go, hn, hc, hout]
      · simp [List.filter_cons, hn, hlen]

/-- Counting filtered elements through a membership-characterizing predicate:
with both lists duplicate-free and the second contained in the first, the
filter keeps exactly as many elements as the second list has. -/
lemma length_filter_eq_of_mem_iff {α : Type} (l₁ l₂ : List α) (p : α → Bool)
    (h₁ : l₁.Nodup) (h₂ : l₂.Nodup) (hsub : ∀ a ∈ l₂, a ∈ l₁)
    (hp : ∀ a, p a = true ↔ a ∈ l₂) :
    (l₁.filter p).length = l₂.length := by
  have hperm : List.Perm (l₁.filter p) l₂ := by
    refine (List.perm_ext_iff_of_nodup (h₁.filter p) h₂).mpr ?_
    intro a
    rw [List.mem_filter, hp]
    constructor
    · exact And.right
    · intro ha
      exact ⟨hsub a ha, ha⟩
  exact hperm.length_eq

/-- C5: over a feature set respecting the data-model invariants (values among
`+`, `-`, `0`; names drawn without repetition from the table's duplicate-free
name list), `fts_to_str` renders one character per feature, so its output
length equals the feature count and is at most the table name count; the
characters are `'1'` for `+`, `'0'` for `-` and `' '` for `0`, in table
name order. -/
theorem fts_to_str_length_and_rendering :
    (∀ (t : FeatureTable) (seg : FeatureSet),
      (∀ f ∈ seg, f.1 = "+" ∨ f.1 = "-" ∨ f.1 = "0") →
      (∀ f ∈ seg, f.2 ∈ t.names) →
      (seg.map Prod.snd).Nodup →
      t.names.Nodup →
      ∃ out, t.fts_to_str seg = some out ∧
        out.length = seg.length ∧ out.length ≤ t.names.length) ∧
    exampleTable.fts_to_str [("+", "cons"), ("-", "son"), ("0", "lo")] =
      some ['1', '0', ' '] := by
  refine ⟨?_, by decide⟩
  intro t seg hv hsub hnd₁ hnd₂
  obtain ⟨out, hout, hlen⟩ := fts_to_str_go_length seg hv t.names
  refine ⟨out, hout, ?_, ?_⟩
  · rw [hlen, length_filter_eq_of_mem_iff t.names (seg.map Prod.snd) _ hnd₂ hnd₁
      ?_ (nameLookup_isSome seg)]
    · exact seg.length_map Prod.snd
    · intro a ha
      obtain ⟨f, hf, hfa⟩ := List.mem_map.mp ha
      rw [← hfa]
      exact hsub f hf
  · rw [hlen]
    exact List.length_filter_le _ t.names

/-- C5 witness: a single valid feature renders to a single character. -/
theorem fts_to_str_length_and_rendering_witness :
    ∃ out, exampleTable.fts_to_str [("+", "cons")] = some out ∧
      out.length = 1 ∧ out.length ≤ 7 :=
  fts_to_str_length_and_rendering.1 exampleTable [("+", "cons")]
    (by decide) (by decide) (by decide) (by decide)

/-- C7 counterexample: constructing with the unrecognized variant
`"nonesuch"` does not fail with the design document's `ConfigurationError`;
it fails with Python's builtin `KeyError` from the `filenames` dict
subscript (the source defines no `ConfigurationError` class at all). -/
theorem init_unknown_variant_not_configurationError :
    FeatureTable.init "nonesuch" (fun _ => exampleTable) ≠
      Except.error PError.configurationError ∧
    FeatureTable.init "nonesuch" (fun _ => exampleTable) =
      Except.error PError.keyError := by
  refine ⟨?_, rfl⟩
  intro h
  rw [show FeatureTable.init "nonesuch" (fun _ => exampleTable) =
      Except.error PError.keyError from rfl] at h
  injection h with h
  exact absurd h (by decide)

/-- C7 (amended): constructing a `FeatureTable` with a variant name that is
none of the recognized identifiers `spe+`, `panphon`, `phoible` fails with
`KeyError` (raised by the `filenames` dict lookup); the source defines no
`ConfigurationError`. -/
theorem init_unknown_variant_raises_keyError :
    ∀ (variant : String) (loader : String → FeatureTable),
      variant ≠ "spe+" → variant ≠ "panphon" → variant ≠ "phoible" →
      FeatureTable.init variant loader = Except.error PError.keyError := by
  intro v loader h1 h2 h3
  unfold FeatureTable.init
  have hnone : dictLookup v filenames = none := by
    simp [dictLookup, filenames, List.find?, Ne.symm h1, Ne.symm h2, Ne.symm h3]
  rw [hnone]

/-- C7 witness: the unrecognized variant `"xyz"` fails with `KeyError`. -/
theorem init_unknown_variant_raises_keyError_witness :
    FeatureTable.init "xyz" (fun _ => exampleTable) = Except.error PError.keyError :=
  init_unknown_variant_raises_keyError "xyz" (fun _ => exampleTable)
    (by decide) (by decide) (by decide)

/-- C8: `segment_text` on `pʰa` (code points 0x70, 0x2B0, 0x61) yields
exactly the two segments `pʰ` and `a` — the spacing-modifier aspiration mark
attaches to the preceding base character — and re-invoking the function on
any text reproduces the same sequence. -/
theorem segment_text_aspiration_attaches :
    segment_text [0x70, 0x2B0, 0x61] = [[0x70, 0x2B0], [0x61]] ∧
    ∀ text : Text, segment_text text = segment_text text := by
  refine ⟨?_, fun _ => rfl⟩
  simp [segment_text, isBaseChar, isCombining, isModifier]

/-- C9: `delete_ties` is idempotent — applying it twice yields the same
segment-to-feature-set mapping (Python dict lookup) as applying it once. -/
theorem delete_ties_idempotent :
    ∀ (t : FeatureTable) (k : Segment),
      dictLookup k t.delete_ties.delete_ties.seg_dict =
        dictLookup k t.delete_ties.seg_dict := by
  intro t k
  have h : t.delete_ties.delete_ties.seg_dict = t.delete_ties.seg_dict := by
    simp only [FeatureTable.delete_ties, List.map_map]
    refine List.map_congr_left ?_
    intro kv _
    simp [Function.comp, List.filter_filter, Bool.and_self]
  rw [h]
